import Mathlib

/-!
# Verification of the PSIMF dashboard data layer (`src/app/app.py`)

Shallow embedding of the data model and operations of the Shiny dashboard:

* data frames are lists of typed rows; the land-cover frames carry the
  columns `Feature_Name`, `Year`, `Landcover_Class`, `diff_dev`,
  `Developable_Area_km2`; hydrologic frames carry a `Year` column plus a
  schema of named numeric columns; numeric values are `Rat`;
* `pandas.unique` (first-occurrence deduplication) is `uniqueList`;
* `pivot_table` / `groupby` sort their index keys, embedded via `sortBy`;
* the `lru_cache`-memoized loader is explicit state passing over an
  association-list cache, with fallible fetching as `Except`;
* the UI/server registration structure (output names, radio choices) is
  transcribed as plain list data.
-/

/-- One row of a diffed land-cover CSV (`diffed_counties.csv` etc.), with the
columns used by `app.py`: `Feature_Name`, `Year`, `Landcover_Class`,
`diff_dev`, `Developable_Area_km2`. -/
structure LCRow where
  feature_name : String
  year : Int
  landcover_class : String
  diff_dev : Rat
  developable_area_km2 : Rat
  deriving DecidableEq, Repr

/-- A land-cover data frame: a list of rows. -/
abbrev LCFrame := List LCRow

/-- First-occurrence deduplication with an accumulator of already-seen
elements; `uniqueAux l seen` keeps the elements of `l` not in `seen`, first
occurrences only. -/
def uniqueAux [DecidableEq α] : List α → List α → List α
  | [], _ => []
  | a :: l, seen => if a ∈ seen then uniqueAux l seen else a :: uniqueAux l (a :: seen)

/-- Embedding of `pandas.Series.unique`: distinct values in order of first
occurrence. -/
def uniqueList [DecidableEq α] (l : List α) : List α := uniqueAux l []

theorem mem_uniqueAux [DecidableEq α] (l : List α) (x : α) :
    ∀ seen, x ∈ uniqueAux l seen ↔ x ∈ l ∧ x ∉ seen := by
  induction l with
  | nil => intro seen; simp [uniqueAux]
  | cons a l ih =>
    intro seen
    by_cases h : a ∈ seen
    · rw [uniqueAux, if_pos h, ih]
      constructor
      · rintro ⟨hx, hns⟩; exact ⟨List.mem_cons_of_mem a hx, hns⟩
      · rintro ⟨hx, hns⟩
        rcases List.mem_cons.1 hx with rfl | hx
        · exact absurd h hns
        · exact ⟨hx, hns⟩
    · rw [uniqueAux, if_neg h]
      constructor
      · intro hm
        rcases List.mem_cons.1 hm with rfl | hm
        · exact ⟨List.mem_cons_self x l, h⟩
        · rcases (ih (a :: seen)).1 hm with ⟨hx, hns⟩
          exact ⟨List.mem_cons_of_mem a hx, fun hc => hns (List.mem_cons_of_mem a hc)⟩
      · rintro ⟨hx, hns⟩
        rcases List.mem_cons.1 hx with rfl | hx
        · exact List.mem_cons_self x _
        · by_cases hxa : x = a
          · exact hxa ▸ List.mem_cons_self a _
          · refine List.mem_cons_of_mem a ((ih (a :: seen)).2 ⟨hx, ?_⟩)
            intro hc
            rcases List.mem_cons.1 hc with h1 | h2
            · exact hxa h1
            · exact hns h2

theorem nodup_uniqueAux [DecidableEq α] (l : List α) :
    ∀ seen, (uniqueAux l seen).Nodup := by
  induction l with
  | nil => intro seen; simp [uniqueAux]
  | cons a l ih =>
    intro seen
    by_cases h : a ∈ seen
    · rw [uniqueAux, if_pos h]; exact ih seen
    · rw [uniqueAux, if_neg h]
      refine List.Nodup.cons ?_ (ih (a :: seen))
      intro hc
      exact ((mem_uniqueAux l a (a :: seen)).1 hc).2 (List.mem_cons_self a seen)

theorem mem_uniqueList [DecidableEq α] (l : List α) (x : α) :
    x ∈ uniqueList l ↔ x ∈ l := by
  rw [uniqueList, mem_uniqueAux]; simp

theorem nodup_uniqueList [DecidableEq α] (l : List α) : (uniqueList l).Nodup :=
  nodup_uniqueAux l []

/-- Insert into a list sorted by the boolean comparison `le`. -/
def insertSorted (le : α → α → Bool) (a : α) : List α → List α
  | [] => [a]
  | b :: l => if le a b then a :: b :: l else b :: insertSorted le a l

/-- Insertion sort by a boolean comparison; embeds the ascending ordering
that `pandas.pivot_table` and `groupby` apply to their index keys. -/
def sortBy (le : α → α → Bool) : List α → List α
  | [] => []
  | a :: l => insertSorted le a (sortBy le l)

theorem insertSorted_perm (le : α → α → Bool) (a : α) (l : List α) :
    List.Perm (insertSorted le a l) (a :: l) := by
  induction l with
  | nil => exact List.Perm.refl _
  | cons b l ih =>
    cases hle : le a b
    · simp only [insertSorted, hle, Bool.false_eq_true, if_false]
      exact List.Perm.trans (List.Perm.cons b ih) (List.Perm.swap a b l)
    · simp only [insertSorted, hle, if_true]
      exact List.Perm.refl _

theorem sortBy_perm (le : α → α → Bool) (l : List α) :
    List.Perm (sortBy le l) l := by
  induction l with
  | nil => exact List.Perm.refl _
  | cons a l ih =>
    exact List.Perm.trans (insertSorted_perm le a (sortBy le l)) (List.Perm.cons a ih)

theorem mem_sortBy (le : α → α → Bool) (l : List α) (x : α) :
    x ∈ sortBy le l ↔ x ∈ l :=
  (sortBy_perm le l).mem_iff

theorem nodup_sortBy (le : α → α → Bool) (l : List α) (h : l.Nodup) :
    (sortBy le l).Nodup :=
  ((sortBy_perm le l).nodup_iff).2 h

/-- Boolean ascending order on years (integers). -/
def intLe (a b : Int) : Bool := decide (a ≤ b)

theorem map_fst_map_pair (l : List α) (g : α → β) :
    (l.map (fun a => (a, g a))).map Prod.fst = l := by
  induction l with
  | nil => rfl
  | cons a l ih => simp only [List.map_cons, ih]

/-- Boolean ascending order on characters, by codepoint. -/
def charLt (a b : Char) : Bool := decide (a.toNat < b.toNat)

/-- Lexicographic order on character lists, by codepoint. -/
def strLtChars : List Char → List Char → Bool
  | [], [] => false
  | [], _ :: _ => true
  | _ :: _, [] => false
  | a :: as, b :: bs =>
    if charLt a b then true else if charLt b a then false else strLtChars as bs

/-- Boolean ascending lexicographic order on strings (codepoint order, the
order in which `pandas` sorts string labels). -/
def strLe (a b : String) : Bool := strLtChars a.data b.data || a == b

/-- Mean of a list of rationals, as `pandas` computes a group mean
(`sum / count`); callers guard the empty group with the fill value. -/
def ratMean (xs : List Rat) : Rat := xs.sum / (xs.length : Rat)

/-- Minimum of a nonempty list of rationals (`agg "min"`); 0 on `[]`,
which never arises since groups are nonempty. -/
def ratListMin : List Rat → Rat
  | [] => 0
  | [x] => x
  | x :: xs => min x (ratListMin xs)

/-- Maximum of a nonempty list of rationals (`agg "max"`); 0 on `[]`. -/
def ratListMax : List Rat → Rat
  | [] => 0
  | [x] => x
  | x :: xs => max x (ratListMax xs)

/-- Embedding of the line `df = df[df["Feature_Name"] == region_name]`
shared by `make_lcc_plot` and `make_lcc_area_plot`. -/
def filterRegion (df : LCFrame) (region_name : String) : LCFrame :=
  df.filter (fun r => r.feature_name == region_name)

/-- Index of the land-cover pivot: the distinct `Year` values of the
(filtered) frame, sorted ascending as `pivot_table` sorts its index. -/
def pivotYearIndex (fd : LCFrame) : List Int :=
  sortBy intLe (uniqueList (fd.map (fun r => r.year)))

/-- Columns of the land-cover pivot: the distinct `Landcover_Class` values
of the (filtered) frame, sorted ascending. -/
def pivotClassIndex (fd : LCFrame) : List String :=
  sortBy strLe (uniqueList (fd.map (fun r => r.landcover_class)))

/-- The group of rows aggregated into the pivot cell at `(y, c)`. -/
def lccGroup (fd : LCFrame) (y : Int) (c : String) : LCFrame :=
  fd.filter (fun r => r.year == y && r.landcover_class == c)

/-- The `pivot_table(index="Year", columns="Landcover_Class",
values="diff_dev", fill_value=0)` call of `make_lcc_plot` on an
already-filtered frame `fd`, with the default `mean` aggregation. The
result lists, per sorted distinct year, the cells for each sorted distinct
class. -/
def lccMeanPivot (fd : LCFrame) : List (Int × List (String × Rat)) :=
  (pivotYearIndex fd).map (fun y =>
    (y, (pivotClassIndex fd).map (fun c =>
      (c, if (lccGroup fd y c).isEmpty then 0
          else ratMean ((lccGroup fd y c).map (fun r => r.diff_dev))))))

/-- The `pivot_table(index="Year", columns="Landcover_Class",
values="Developable_Area_km2", aggfunc="sum", fill_value=0)` call of
`make_lcc_area_plot` on an already-filtered frame `fd`. -/
def lccSumPivot (fd : LCFrame) : List (Int × List (String × Rat)) :=
  (pivotYearIndex fd).map (fun y =>
    (y, (pivotClassIndex fd).map (fun c =>
      (c, if (lccGroup fd y c).isEmpty then 0
          else ((lccGroup fd y c).map (fun r => r.developable_area_km2)).sum))))

/-- Embedding of the data transform of `make_lcc_plot`: filter the frame to
`region_name` (`df = df[df["Feature_Name"] == region_name]`), then pivot
with mean aggregation and fill value 0. -/
def make_lcc_plot_pivot (df : LCFrame) (region_name : String) :
    List (Int × List (String × Rat)) :=
  lccMeanPivot (filterRegion df region_name)

/-- Embedding of the data transform of `make_lcc_area_plot`: filter the
frame to `region_name`, then pivot with sum aggregation and fill value 0. -/
def make_lcc_area_pivot (df : LCFrame) (region_name : String) :
    List (Int × List (String × Rat)) :=
  lccSumPivot (filterRegion df region_name)

/-- The `lcc_data` registry of land-cover datasets, name → URL. -/
def lcc_data : List (String × String) :=
  [("counties", "https://uw-psi.github.io/shinyapp/data/diffed_counties.csv"),
   ("wrias", "https://uw-psi.github.io/shinyapp/data/diffed_wrias.csv"),
   ("velma", "https://uw-psi.github.io/shinyapp/data/diffed_velma.csv")]

/-- The `velma_files` registry; the `temp2011` and `totN2011` entries are
commented out in the source and therefore absent. -/
def velma_files : List (String × String) :=
  [("flow2011", "https://uw-psi.github.io/shinyapp/data/velma_monthly_flow_stats_2011.csv"),
   ("totC2011", "https://uw-psi.github.io/shinyapp/data/velma_monthly_C_stats_2011.csv")]

/-- The `river_files` registry of hydrologic datasets. -/
def river_files : List (String × String) :=
  [("Pullayup", "https://uw-psi.github.io/shinyapp/data/Pullayup.csv"),
   ("Snohomish", "https://uw-psi.github.io/shinyapp/data/Snohomish.csv"),
   ("Green", "https://uw-psi.github.io/shinyapp/data/Green.csv"),
   ("Samish", "https://uw-psi.github.io/shinyapp/data/Sammish.csv"),
   ("Stillaguamish", "https://uw-psi.github.io/shinyapp/data/Stillaguamish.csv"),
   ("Hoko", "https://uw-psi.github.io/shinyapp/data/Hoko.csv"),
   ("Elwha", "https://uw-psi.github.io/shinyapp/data/Elwha.csv"),
   ("Deschutes", "https://uw-psi.github.io/shinyapp/data/Deschutes.csv")]

/-- The keys offered by the `velma_var` radio buttons in the UI
(`choices={"flow2011": "Flow", "temp2011": "Temperature",
"totN2011": "Total Nitrogen", "totC2011": "Total Carbon"}`). -/
def velma_var_choices : List String :=
  ["flow2011", "temp2011", "totN2011", "totC2011"]

/-- Errors a dataset load can surface: a `KeyError` from indexing the
`lcc_data` dict with an unknown name, or an error raised by
`read_csv_url` (network failure or malformed CSV), of caller type `E`. -/
inductive LoadErr (E : Type) where
  | keyError (key : String)
  | fetchErr (e : E)
  deriving DecidableEq

/-- Embedding of the `lru_cache`-decorated `load_lcc_dataset`. The implicit
process-wide cache is passed explicitly as an association list keyed by
dataset name; `fetch` stands for `read_csv_url`, which may fail. Returns
the result, the cache after the call, and whether `read_csv_url` was
invoked. A raised fetch error propagates unmodified and — as with
`lru_cache`, which caches only successful returns — leaves the cache
unchanged. -/
def load_lcc_dataset {DF E : Type} (fetch : String → Except E DF)
    (cache : List (String × DF)) (name : String) :
    Except (LoadErr E) DF × List (String × DF) × Bool :=
  match cache.lookup name with
  | some df => (Except.ok df, cache, false)
  | none =>
    match lcc_data.lookup name with
    | some url =>
      match fetch url with
      | Except.ok df => (Except.ok df, (name, df) :: cache, true)
      | Except.error e => (Except.error (LoadErr.fetchErr e), cache, true)
    | none => (Except.error (LoadErr.keyError name), cache, false)

/-- Embedding of the reactive computation `selected_dataset`, which calls
`load_lcc_dataset` with the name selected by `region_type` and propagates
whatever it returns or raises. -/
def selected_dataset {DF E : Type} (fetch : String → Except E DF)
    (cache : List (String × DF)) (region_type : String) :
    Except (LoadErr E) DF × List (String × DF) × Bool :=
  if region_type == "County" then load_lcc_dataset fetch cache "counties"
  else if region_type == "VELMA watershed" then load_lcc_dataset fetch cache "velma"
  else load_lcc_dataset fetch cache "wrias"

/-- The dropdown list over a land-cover frame, as in
`df["Feature_Name"].unique().tolist()` (`county_list`, `wria_list`,
`velma_list`). -/
def feature_name_list (df : LCFrame) : List String :=
  uniqueList (df.map (fun r => r.feature_name))

/-- A rendered `ui.input_select` widget: id, label and choice list. -/
structure SelectWidget where
  id : String
  label : String
  choices : List String
  deriving DecidableEq, Repr

/-- Embedding of the render function `region_selector`: one conditional
branch on `input.region_type()` choosing which dataset's unique feature
names populate the `region_name` select. -/
def region_selector (region_type : String)
    (county_list wria_list velma_list : List String) : SelectWidget :=
  if region_type == "County" then
    { id := "region_name", label := "Select County", choices := county_list }
  else if region_type == "VELMA watershed" then
    { id := "region_name", label := "Select VELMA watershed", choices := velma_list }
  else
    { id := "region_name", label := "Select WRIA", choices := wria_list }

/-- One row of a hydrologic CSV: a `Year` key plus the remaining named
numeric columns as an association list. -/
structure HRow where
  year : Int
  vals : List (String × Rat)
  deriving DecidableEq, Repr

/-- A hydrologic data frame: its column names (beyond the schema carried
row-wise) and its rows. -/
structure HFrame where
  cols : List String
  rows : List HRow
  deriving DecidableEq, Repr

/-- Value of column `var` in a row; 0 when absent (a well-formed frame has
every listed column in every row). -/
def colVal (r : HRow) (var : String) : Rat := (r.vals.lookup var).getD 0

/-- Embedding of `hydro_variable_options`: the columns of the sample
(Pullayup) frame with `Year`, `Day`, `Loop` and `Step` removed, keeping
column order. -/
def hydro_variable_options (cols : List String) : List String :=
  cols.filter (fun c => !(["Year", "Day", "Loop", "Step"].contains c))

/-- The choice list of the `variable` select as seen with a given river
selected: the UI declares `choices=hydro_variable_options`, a module-level
constant computed from the sample columns, so the river argument is
ignored. -/
def variable_choices (sampleCols : List String) (_river : String) : List String :=
  hydro_variable_options sampleCols

/-- One row of the frame produced by
`df.groupby("Year")[var].agg(["min", "max", "mean"]).reset_index()`. -/
structure HSummaryRow where
  year : Int
  minV : Rat
  maxV : Rat
  meanV : Rat
  deriving DecidableEq, Repr

/-- The values of column `var` in the year-`y` group of frame `f`. -/
def hydroGroupVals (f : HFrame) (var : String) (y : Int) : List Rat :=
  (f.rows.filter (fun r => r.year == y)).map (fun r => colVal r var)

/-- Embedding of the reactive computation `hydro_summary`:
`groupby("Year")[var].agg(["min", "max", "mean"])`, one summary row per
distinct year (sorted ascending, as `groupby` sorts its keys). Selecting a
column absent from the frame raises a `KeyError`, embedded as `none`; the
code contains no guard on the column's existence. -/
def hydro_summary (f : HFrame) (var : String) : Option (List HSummaryRow) :=
  if var ∈ f.cols then
    some ((sortBy intLe (uniqueList (f.rows.map (fun r => r.year)))).map (fun y =>
      { year := y
        minV := ratListMin (hydroGroupVals f var y)
        maxV := ratListMax (hydroGroupVals f var y)
        meanV := ratMean (hydroGroupVals f var y) }))
  else none

/-- One row of a VELMA monthly-stats CSV: `Watershed`, `Month`, `Year` and
the remaining named numeric columns. -/
structure VRow where
  watershed : String
  month : Int
  year : Int
  vals : List (String × Rat)
  deriving DecidableEq, Repr

/-- Embedding of the data transform of `make_velma_plot`: filter the frame
to `watershed`, then `pivot_table(index="Month", columns="Year",
values=variable)` with the default `mean` aggregation and no fill value —
combinations with no rows stay missing (`none`). -/
def make_velma_pivot (df : List VRow) (watershed var : String) :
    List (Int × List (Int × Option Rat)) :=
  let fd := df.filter (fun r => r.watershed == watershed)
  let months := sortBy intLe (uniqueList (fd.map (fun r => r.month)))
  let years := sortBy intLe (uniqueList (fd.map (fun r => r.year)))
  months.map (fun m =>
    (m, years.map (fun y =>
      let g := fd.filter (fun r => r.month == m && r.year == y)
      (y, if g.isEmpty then none
          else some (ratMean (g.map (fun r => (r.vals.lookup var).getD 0)))))))

/-- Run `make_lcc_plot`'s data transform, returning the source frame as it
stands after the call together with the derived pivot. In the source, the
assignment `df = df[...]` rebinds the local name to a new filtered frame
and `pivot_table` allocates a fresh frame, so the argument frame is
returned as is. -/
def run_make_lcc_plot (df : LCFrame) (region_name : String) :
    LCFrame × List (Int × List (String × Rat)) :=
  (df, make_lcc_plot_pivot df region_name)

/-- Run `make_lcc_area_plot`'s data transform, returning the untouched
source frame alongside the derived pivot. -/
def run_make_lcc_area_plot (df : LCFrame) (region_name : String) :
    LCFrame × List (Int × List (String × Rat)) :=
  (df, make_lcc_area_pivot df region_name)

/-- Run `make_velma_plot`'s data transform, returning the untouched source
frame alongside the derived pivot. -/
def run_make_velma_plot (df : List VRow) (watershed var : String) :
    List VRow × List (Int × List (Int × Option Rat)) :=
  (df, make_velma_pivot df watershed var)

/-- Run `hydro_summary`, returning the untouched source frame alongside the
derived summary (`groupby`/`agg`/`reset_index` all allocate new frames). -/
def run_hydro_summary (f : HFrame) (var : String) :
    HFrame × Option (List HSummaryRow) :=
  (f, hydro_summary f var)

/-- The output names the server function registers, in definition order:
its `@render.ui` / `@render.plot` decorated functions. -/
def server_outputs : List String :=
  ["region_selector", "plot_lcc", "plot_lcc_area", "timeseries_plot"]

/-- The reactive computations the server registers via `@reactive.Calc`. -/
def server_reactive_calcs : List String :=
  ["selected_region_type", "selected_dataset", "hydro_data", "hydro_summary"]

/-- The output slots the UI declares (`ui.output_ui` / `ui.output_plot`),
in page order. -/
def ui_output_slots : List String :=
  ["region_selector", "plot_lcc", "plot_lcc_area", "velma_monthly_plot", "timeseries_plot"]

/-- The helper functions and reactive computations each registered server
function calls, transcribed from the bodies in `server`. -/
def server_call_graph : List (String × List String) :=
  [("region_selector", []),
   ("selected_region_type", []),
   ("selected_dataset", ["selected_region_type", "load_lcc_dataset"]),
   ("plot_lcc", ["selected_dataset", "make_lcc_plot"]),
   ("plot_lcc_area", ["selected_dataset", "make_lcc_area_plot"]),
   ("hydro_data", ["read_csv_url"]),
   ("hydro_summary", ["hydro_data"]),
   ("timeseries_plot", ["hydro_summary"])]

theorem lccGroup_split (l : LCFrame) (y : Int) (c : String) :
    lccGroup l y c
      = (l.filter (fun r => r.year == y)).filter (fun r => r.landcover_class == c) := by
  rw [List.filter_filter]
  exact List.filter_congr (fun r _ => Bool.and_comm _ _)

theorem ratMean_singleton (x : Rat) : ratMean [x] = x := by
  simp [ratMean]

theorem filterRegion_idem (df : LCFrame) (region : String) :
    filterRegion (filterRegion df region) region = filterRegion df region := by
  rw [filterRegion, filterRegion, List.filter_filter]
  exact List.filter_congr (fun r _ => Bool.and_self _)

theorem sum_map_ite_of_not_mem [DecidableEq β] (a : β) (v : Rat) (cs : List β)
    (h : a ∉ cs) :
    (cs.map (fun c => if a = c then v else 0)).sum = 0 := by
  refine List.sum_eq_zero ?_
  intro x hx
  rcases List.mem_map.1 hx with ⟨c, hc, rfl⟩
  rw [if_neg]
  intro hac
  exact h (hac ▸ hc)

theorem sum_map_ite_of_nodup [DecidableEq β] (a : β) (v : Rat) (cs : List β)
    (hnd : cs.Nodup) (hm : a ∈ cs) :
    (cs.map (fun c => if a = c then v else 0)).sum = v := by
  induction cs with
  | nil => cases hm
  | cons b cs ih =>
    rcases List.mem_cons.1 hm with rfl | hm2
    · rw [List.map_cons, List.sum_cons, if_pos rfl,
          sum_map_ite_of_not_mem a v cs (List.nodup_cons.1 hnd).1, add_zero]
    · have hab : a ≠ b := by
        intro h
        exact (List.nodup_cons.1 hnd).1 (h ▸ hm2)
      simp only [List.map_cons, List.sum_cons, if_neg hab, zero_add]
      exact ih (List.nodup_cons.1 hnd).2 hm2

theorem sum_map_filter_partition [DecidableEq β] (key : α → β) (dev : α → Rat)
    (cs : List β) (hnd : cs.Nodup) :
    ∀ l : List α, (∀ r ∈ l, key r ∈ cs) →
      (cs.map (fun c => ((l.filter (fun r => key r == c)).map dev).sum)).sum
        = (l.map dev).sum := by
  intro l
  induction l with
  | nil =>
    intro _
    refine Eq.trans (List.sum_eq_zero ?_) rfl
    intro x hx
    rcases List.mem_map.1 hx with ⟨c, _, rfl⟩
    rfl
  | cons r l ih =>
    intro hall
    have hr : key r ∈ cs := hall r (List.mem_cons_self r l)
    have hl : ∀ x ∈ l, key x ∈ cs := fun x hx => hall x (List.mem_cons_of_mem r hx)
    have step : ∀ c ∈ cs, ((List.filter (fun x => key x == c) (r :: l)).map dev).sum
        = (if key r = c then dev r else 0) + ((l.filter (fun x => key x == c)).map dev).sum := by
      intro c _
      by_cases h : key r = c
      · rw [List.filter_cons, if_pos (by simp [h]), if_pos h]
        simp
      · rw [List.filter_cons, if_neg (by simp [h]), if_neg h, zero_add]
    rw [List.map_congr_left step, List.sum_map_add,
        sum_map_ite_of_nodup (key r) (dev r) cs hnd hr, ih hl]
    simp

theorem pivot_row_total (dev : LCRow → Rat) (fd : LCFrame) (y : Int) :
    ((pivotClassIndex fd).map (fun c => ((lccGroup fd y c).map dev).sum)).sum
      = ((fd.filter (fun r => r.year == y)).map dev).sum := by
  have hnd : (pivotClassIndex fd).Nodup := nodup_sortBy _ _ (nodup_uniqueList _)
  have hall : ∀ r ∈ fd.filter (fun r => r.year == y),
      r.landcover_class ∈ pivotClassIndex fd := by
    intro r hr
    rw [pivotClassIndex, mem_sortBy, mem_uniqueList]
    exact List.mem_map.2 ⟨r, List.mem_of_mem_filter hr, rfl⟩
  have hpart := sum_map_filter_partition (fun r => r.landcover_class) dev
    (pivotClassIndex fd) hnd (fd.filter (fun r => r.year == y)) hall
  rw [← hpart]
  congr 1
  refine List.map_congr_left ?_
  intro c _
  rw [lccGroup_split]

/-- A small concrete land-cover frame used to instantiate general theorems. -/
def sampleLCFrame : LCFrame :=
  [{ feature_name := "King", year := 2015, landcover_class := "Forest",
     diff_dev := 2, developable_area_km2 := 5 },
   { feature_name := "King", year := 2020, landcover_class := "Forest",
     diff_dev := -1, developable_area_km2 := 4 },
   { feature_name := "Pierce", year := 2015, landcover_class := "Agriculture",
     diff_dev := 3, developable_area_km2 := 7 }]

/-- A small concrete hydrologic frame used to instantiate general theorems. -/
def sampleHFrame : HFrame :=
  { cols := ["Year", "Flow_cms", "Day"],
    rows := [{ year := 2015, vals := [("Flow_cms", 3), ("Day", 1)] },
             { year := 2015, vals := [("Flow_cms", 5), ("Day", 2)] },
             { year := 2016, vals := [("Flow_cms", 4), ("Day", 1)] }] }

/-- A land-cover frame in which one (Feature_Name, Year, Landcover_Class)
combination holds two rows, so mean and sum aggregation differ. -/
def dupRowFrame : LCFrame :=
  [{ feature_name := "King", year := 2020, landcover_class := "Forest",
     diff_dev := 1, developable_area_km2 := 1 },
   { feature_name := "King", year := 2020, landcover_class := "Forest",
     diff_dev := 3, developable_area_km2 := 1 }]

/-- C4: the `velma_var` radio buttons offer `temp2011` and `totN2011`, yet
neither is a key of the `velma_files` registry, so `velma_files[velma_var]`
has no defined result for those two selectable values. -/
theorem velma_var_choices_not_in_registry :
    "temp2011" ∈ velma_var_choices ∧ "totN2011" ∈ velma_var_choices ∧
    velma_files.lookup "temp2011" = none ∧ velma_files.lookup "totN2011" = none ∧
    "temp2011" ∉ velma_files.map Prod.fst ∧ "totN2011" ∉ velma_files.map Prod.fst := by
  decide

/-- C9: the server registers render outputs only for `region_selector`,
`plot_lcc`, `plot_lcc_area` and `timeseries_plot`; no output named
`velma_monthly_plot` is defined although the UI declares that slot, and no
registered output or reactive computation calls `make_velma_plot`. -/
theorem server_never_populates_velma_monthly_plot :
    server_outputs = ["region_selector", "plot_lcc", "plot_lcc_area", "timeseries_plot"] ∧
    "velma_monthly_plot" ∉ server_outputs ∧
    "velma_monthly_plot" ∉ server_reactive_calcs ∧
    "velma_monthly_plot" ∈ ui_output_slots ∧
    (∀ p ∈ server_call_graph, "make_velma_plot" ∉ p.2) ∧
    (∀ name ∈ server_outputs ++ server_reactive_calcs,
      ∃ p ∈ server_call_graph, p.1 = name) := by
  decide

/-- C3: for a name present in the `lcc_data` registry and a fetch that
succeeds, a call to the memoized loader followed by a second call with the
same name returns the same in-memory frame both times, leaves the cache as
the first call left it, and performs no fetch on the second call. -/
theorem load_lcc_dataset_memoizes {DF E : Type} (fetch : String → Except E DF)
    (cache : List (String × DF)) (name url : String) (df0 : DF)
    (hreg : lcc_data.lookup name = some url)
    (hfetch : fetch url = Except.ok df0) :
    ∃ df cache2 b,
      load_lcc_dataset fetch cache name = (Except.ok df, cache2, b) ∧
      load_lcc_dataset fetch cache2 name = (Except.ok df, cache2, false) := by
  cases hc : cache.lookup name with
  | some d =>
    exact ⟨d, cache, false, by rw [load_lcc_dataset, hc], by rw [load_lcc_dataset, hc]⟩
  | none =>
    refine ⟨df0, (name, df0) :: cache, true, ?_, ?_⟩
    · simp [load_lcc_dataset, hc, hreg, hfetch]
    · rw [load_lcc_dataset]
      simp

/-- Witness for C3 at a concrete fetch function, empty cache and the
registry name "counties". -/
theorem load_lcc_dataset_memoizes_witness :
    ∃ df cache2 b,
      load_lcc_dataset (fun _ => (Except.ok 7 : Except Unit Nat)) [] "counties"
        = (Except.ok df, cache2, b) ∧
      load_lcc_dataset (fun _ => (Except.ok 7 : Except Unit Nat)) cache2 "counties"
        = (Except.ok df, cache2, false) :=
  load_lcc_dataset_memoizes (fun _ => Except.ok 7) []
    "counties" "https://uw-psi.github.io/shinyapp/data/diffed_counties.csv" 7 rfl rfl

/-- C8: on a cache miss whose fetch raises, the loader propagates the error
unmodified, attempts exactly one fetch (no retry), and enters nothing into
the cache, so any subsequent call with the same name fetches afresh; the
reactive `selected_dataset` computations pass the loader's result through
unchanged. -/
theorem load_lcc_dataset_error_propagation {DF E : Type}
    (fetch fetch2 : String → Except E DF) (cache : List (String × DF))
    (name url : String) (e : E)
    (hc : cache.lookup name = none)
    (hreg : lcc_data.lookup name = some url)
    (hfetch : fetch url = Except.error e) :
    load_lcc_dataset fetch cache name
      = (Except.error (LoadErr.fetchErr e), cache, true) ∧
    (load_lcc_dataset fetch2 cache name).2.2 = true ∧
    selected_dataset fetch cache "County" = load_lcc_dataset fetch cache "counties" ∧
    selected_dataset fetch cache "VELMA watershed" = load_lcc_dataset fetch cache "velma" ∧
    selected_dataset fetch cache "WRIA" = load_lcc_dataset fetch cache "wrias" := by
  refine ⟨?_, ?_, rfl, rfl, rfl⟩
  · simp [load_lcc_dataset, hc, hreg, hfetch]
  · cases hf2 : fetch2 url with
    | ok d => simp [load_lcc_dataset, hc, hreg, hf2]
    | error e2 => simp [load_lcc_dataset, hc, hreg, hf2]

/-- Witness for C8 at a concrete failing fetch, empty cache and the
registry name "counties". -/
theorem load_lcc_dataset_error_propagation_witness :
    load_lcc_dataset (fun _ => (Except.error "boom" : Except String Nat)) [] "counties"
      = (Except.error (LoadErr.fetchErr "boom"), [], true) :=
  (load_lcc_dataset_error_propagation (fun _ => Except.error "boom")
    (fun _ => Except.error "boom") [] "counties"
    "https://uw-psi.github.io/shinyapp/data/diffed_counties.csv" "boom"
    rfl rfl rfl).1

/-- C5: the derived-frame computations are deterministic — for equal input
frames and equal selections, the land-cover pivots and the hydrologic
group-aggregate produce identical derived frames. -/
theorem derived_frames_deterministic (df df2 : LCFrame) (f f2 : HFrame)
    (region region2 v v2 : String)
    (hdf : df = df2) (hr : region = region2) (hf : f = f2) (hv : v = v2) :
    make_lcc_plot_pivot df region = make_lcc_plot_pivot df2 region2 ∧
    make_lcc_area_pivot df region = make_lcc_area_pivot df2 region2 ∧
    hydro_summary f v = hydro_summary f2 v2 := by
  subst hdf; subst hr; subst hf; subst hv
  exact ⟨rfl, rfl, rfl⟩

/-- Witness for C5 at concrete frames and selections. -/
theorem derived_frames_deterministic_witness :
    make_lcc_plot_pivot sampleLCFrame "King" = make_lcc_plot_pivot sampleLCFrame "King" ∧
    make_lcc_area_pivot sampleLCFrame "King" = make_lcc_area_pivot sampleLCFrame "King" ∧
    hydro_summary sampleHFrame "Flow_cms" = hydro_summary sampleHFrame "Flow_cms" :=
  derived_frames_deterministic sampleLCFrame sampleLCFrame sampleHFrame sampleHFrame
    "King" "King" "Flow_cms" "Flow_cms" rfl rfl rfl rfl

/-- C7: no derived-frame computation mutates its source frame — after each
of the four transforms runs, the source frame it was given is unchanged. -/
theorem derived_frames_no_mutation (df : LCFrame) (vf : List VRow) (f : HFrame)
    (region w v hv : String) :
    (run_make_lcc_plot df region).1 = df ∧
    (run_make_lcc_area_plot df region).1 = df ∧
    (run_make_velma_plot vf w v).1 = vf ∧
    (run_hydro_summary f hv).1 = f :=
  ⟨rfl, rfl, rfl, rfl⟩

theorem feature_name_list_spec (df : LCFrame) :
    (feature_name_list df).Nodup ∧
    ∀ x, x ∈ feature_name_list df ↔ ∃ r ∈ df, r.feature_name = x := by
  refine ⟨nodup_uniqueList _, ?_⟩
  intro x
  rw [feature_name_list, mem_uniqueList, List.mem_map]

/-- C2: for every region type the region-name selector offers exactly the
unique `Feature_Name` values of the corresponding dataset — the counties
list for "County", the velma list for "VELMA watershed", and the wrias
list otherwise — where each list consists of the distinct feature names of
its frame. -/
theorem region_selector_offers_unique_feature_names (region_type : String)
    (dfc dfw dfv : LCFrame) :
    (region_selector region_type (feature_name_list dfc) (feature_name_list dfw)
        (feature_name_list dfv)).choices.Nodup ∧
    (region_type = "County" →
      (region_selector region_type (feature_name_list dfc) (feature_name_list dfw)
          (feature_name_list dfv)).choices = feature_name_list dfc) ∧
    (region_type = "VELMA watershed" →
      (region_selector region_type (feature_name_list dfc) (feature_name_list dfw)
          (feature_name_list dfv)).choices = feature_name_list dfv) ∧
    (region_type ≠ "County" → region_type ≠ "VELMA watershed" →
      (region_selector region_type (feature_name_list dfc) (feature_name_list dfw)
          (feature_name_list dfv)).choices = feature_name_list dfw) ∧
    (∀ df2 : LCFrame, ∀ x,
      x ∈ feature_name_list df2 ↔ ∃ r ∈ df2, r.feature_name = x) := by
  by_cases h1 : region_type = "County"
  · subst h1
    exact ⟨nodup_uniqueList _, fun _ => rfl, fun h => absurd h (by decide),
      fun h => absurd rfl h, fun df2 x => (feature_name_list_spec df2).2 x⟩
  · by_cases h2 : region_type = "VELMA watershed"
    · subst h2
      exact ⟨nodup_uniqueList _, fun h => absurd h h1, fun _ => rfl,
        fun _ h => absurd rfl h, fun df2 x => (feature_name_list_spec df2).2 x⟩
    · have hb1 : ¬ ((region_type == "County") = true) := by
        simp only [beq_iff_eq]; exact h1
      have hb2 : ¬ ((region_type == "VELMA watershed") = true) := by
        simp only [beq_iff_eq]; exact h2
      refine ⟨?_, fun h => absurd h h1, fun h => absurd h h2, fun _ _ => ?_,
        fun df2 x => (feature_name_list_spec df2).2 x⟩
      · simp only [region_selector, if_neg hb1, if_neg hb2]
        exact nodup_uniqueList _
      · simp only [region_selector, if_neg hb1, if_neg hb2]

/-- Witness for C2 at region type "County" and a concrete frame. -/
theorem region_selector_offers_unique_feature_names_witness :
    (region_selector "County" (feature_name_list sampleLCFrame)
        (feature_name_list sampleLCFrame) (feature_name_list sampleLCFrame)).choices
      = feature_name_list sampleLCFrame ∧
    ("King" ∈ feature_name_list sampleLCFrame ↔
      ∃ r ∈ sampleLCFrame, r.feature_name = "King") :=
  ⟨(region_selector_offers_unique_feature_names "County" sampleLCFrame sampleLCFrame
      sampleLCFrame).2.1 rfl,
   (region_selector_offers_unique_feature_names "County" sampleLCFrame sampleLCFrame
      sampleLCFrame).2.2.2.2 sampleLCFrame "King"⟩

/-- A land-cover frame whose region "King" has no Forest rows in 2020 and
no Agriculture rows in 2015, so the pivot contains filled-in cells. -/
def gapLCFrame : LCFrame :=
  [{ feature_name := "King", year := 2015, landcover_class := "Forest",
     diff_dev := 2, developable_area_km2 := 5 },
   { feature_name := "King", year := 2020, landcover_class := "Agriculture",
     diff_dev := 3, developable_area_km2 := 4 }]

/-- C1: filtering a land-cover frame to a fixed region and pivoting
Year × Landcover_Class over `diff_dev` with fill value 0 yields exactly one
pivot row per distinct Year of the filtered rows, exactly one column per
distinct Landcover_Class of the filtered rows, and every cell filled in by
the fill value equals 0. -/
theorem make_lcc_plot_pivot_shape (df : LCFrame) (region : String) :
    ((make_lcc_plot_pivot df region).map Prod.fst
        = pivotYearIndex (filterRegion df region)) ∧
    (pivotYearIndex (filterRegion df region)).Nodup ∧
    (∀ y, y ∈ pivotYearIndex (filterRegion df region) ↔
        ∃ r ∈ filterRegion df region, r.year = y) ∧
    (∀ cells ∈ (make_lcc_plot_pivot df region).map Prod.snd,
        cells.map Prod.fst = pivotClassIndex (filterRegion df region)) ∧
    (pivotClassIndex (filterRegion df region)).Nodup ∧
    (∀ c, c ∈ pivotClassIndex (filterRegion df region) ↔
        ∃ r ∈ filterRegion df region, r.landcover_class = c) ∧
    (∀ y cells, (y, cells) ∈ make_lcc_plot_pivot df region →
        ∀ c v, (c, v) ∈ cells →
          (lccGroup (filterRegion df region) y c).isEmpty = true → v = 0) := by
  refine ⟨?_, nodup_sortBy _ _ (nodup_uniqueList _), ?_, ?_,
    nodup_sortBy _ _ (nodup_uniqueList _), ?_, ?_⟩
  · exact map_fst_map_pair _ _
  · intro y
    rw [pivotYearIndex, mem_sortBy, mem_uniqueList, List.mem_map]
  · intro cells hc
    rcases List.mem_map.1 hc with ⟨yc, hyc, rfl⟩
    rw [make_lcc_plot_pivot, lccMeanPivot] at hyc
    rcases List.mem_map.1 hyc with ⟨y, _, rfl⟩
    exact map_fst_map_pair _ _
  · intro c
    rw [pivotClassIndex, mem_sortBy, mem_uniqueList, List.mem_map]
  · intro y cells hin c v hcv hemp
    rw [make_lcc_plot_pivot, lccMeanPivot] at hin
    rcases List.mem_map.1 hin with ⟨y2, hy2, heq⟩
    cases heq
    rcases List.mem_map.1 hcv with ⟨c2, hc2, heq2⟩
    cases heq2
    rw [if_pos hemp]

/-- Witness for C1: in the concrete gap frame the 2015 pivot row carries a
filled-in Agriculture cell, and the theorem forces it to be 0. -/
theorem make_lcc_plot_pivot_shape_witness :
    ∃ cells v, (2015, cells) ∈ make_lcc_plot_pivot gapLCFrame "King" ∧
      ("Agriculture", v) ∈ cells ∧
      (lccGroup (filterRegion gapLCFrame "King") 2015 "Agriculture").isEmpty = true ∧
      v = 0 := by
  refine ⟨_, _, List.mem_map.2 ⟨2015, by decide, rfl⟩,
    List.mem_map.2 ⟨"Agriculture", by decide, rfl⟩, by decide, ?_⟩
  exact (make_lcc_plot_pivot_shape gapLCFrame "King").2.2.2.2.2.2 2015 _
    (List.mem_map.2 ⟨2015, by decide, rfl⟩) "Agriculture" _
    (List.mem_map.2 ⟨"Agriculture", by decide, rfl⟩) (by decide)

theorem map_map_eq_self (l : List α) (g : α → β) (pr : β → α)
    (h : ∀ a, pr (g a) = a) : (l.map g).map pr = l := by
  induction l with
  | nil => rfl
  | cons a l ih => simp [h, ih]

/-- C6 (amended): for the sum-aggregated area pivot, every pivot row's
stacked-bar total equals the sum of `Developable_Area_km2` over the
region's rows of that year; for the mean-aggregated difference pivot the
same equality with `diff_dev` holds provided no (Year, Landcover_Class)
combination of the region's rows repeats; and filtering the
already-filtered frame by the same region again is idempotent, leaving
both pivots (hence all totals) unchanged. -/
theorem stacked_bar_totals (df : LCFrame) (region : String) :
    (∀ y cells, (y, cells) ∈ make_lcc_area_pivot df region →
      (cells.map Prod.snd).sum
        = (((filterRegion df region).filter (fun r => r.year == y)).map
            (fun r => r.developable_area_km2)).sum) ∧
    ((∀ y ∈ pivotYearIndex (filterRegion df region),
        ∀ c ∈ pivotClassIndex (filterRegion df region),
        (lccGroup (filterRegion df region) y c).length ≤ 1) →
      ∀ y cells, (y, cells) ∈ make_lcc_plot_pivot df region →
      (cells.map Prod.snd).sum
        = (((filterRegion df region).filter (fun r => r.year == y)).map
            (fun r => r.diff_dev)).sum) ∧
    filterRegion (filterRegion df region) region = filterRegion df region ∧
    make_lcc_plot_pivot (filterRegion df region) region = make_lcc_plot_pivot df region ∧
    make_lcc_area_pivot (filterRegion df region) region = make_lcc_area_pivot df region := by
  refine ⟨?_, ?_, filterRegion_idem df region, ?_, ?_⟩
  · intro y cells hin
    rw [make_lcc_area_pivot, lccSumPivot] at hin
    rcases List.mem_map.1 hin with ⟨y2, hy2, heq⟩
    cases heq
    rw [List.map_map]
    refine Eq.trans (congrArg List.sum (List.map_congr_left ?_)) (pivot_row_total _ _ _)
    intro c hc
    by_cases h : (lccGroup (filterRegion df region) y c).isEmpty
    · have hg : lccGroup (filterRegion df region) y c = [] := by simpa using h
      simp [Function.comp, h, hg]
    · simp [Function.comp, h]
  · intro huniq y cells hin
    rw [make_lcc_plot_pivot, lccMeanPivot] at hin
    rcases List.mem_map.1 hin with ⟨y2, hy2, heq⟩
    cases heq
    rw [List.map_map]
    refine Eq.trans (congrArg List.sum (List.map_congr_left ?_)) (pivot_row_total _ _ _)
    intro c hc
    have hlen := huniq y hy2 c hc
    cases hg : lccGroup (filterRegion df region) y c with
    | nil => simp [Function.comp, hg]
    | cons r tail =>
      cases tail with
      | nil => simp [Function.comp, hg, ratMean_singleton]
      | cons r2 tail2 =>
        exfalso
        rw [hg] at hlen
        simp at hlen
  · simp only [make_lcc_plot_pivot, filterRegion_idem]
  · simp only [make_lcc_area_pivot, filterRegion_idem]

/-- Witness for C6 at the concrete sample frame and region "King". -/
theorem stacked_bar_totals_witness :
    ∃ cells cells2,
      (2015, cells) ∈ make_lcc_area_pivot sampleLCFrame "King" ∧
      (cells.map Prod.snd).sum
        = (((filterRegion sampleLCFrame "King").filter (fun r => r.year == 2015)).map
            (fun r => r.developable_area_km2)).sum ∧
      (2015, cells2) ∈ make_lcc_plot_pivot sampleLCFrame "King" ∧
      (cells2.map Prod.snd).sum
        = (((filterRegion sampleLCFrame "King").filter (fun r => r.year == 2015)).map
            (fun r => r.diff_dev)).sum := by
  refine ⟨_, _, List.mem_map.2 ⟨2015, by decide, rfl⟩, ?_,
    List.mem_map.2 ⟨2015, by decide, rfl⟩, ?_⟩
  · exact (stacked_bar_totals sampleLCFrame "King").1 2015 _
      (List.mem_map.2 ⟨2015, by decide, rfl⟩)
  · exact (stacked_bar_totals sampleLCFrame "King").2.1 (by decide) 2015 _
      (List.mem_map.2 ⟨2015, by decide, rfl⟩)

/-- Counterexample for C6 as stated: in a frame where one (Year,
Landcover_Class) group of the region holds two rows, the mean-aggregated
stacked-bar total of `make_lcc_plot`'s pivot (2) differs from the sum of
`diff_dev` over the region's rows of that year (4). -/
theorem stacked_bar_totals_counterexample :
    ∃ cells, (2020, cells) ∈ make_lcc_plot_pivot dupRowFrame "King" ∧
      (cells.map Prod.snd).sum
        ≠ (((filterRegion dupRowFrame "King").filter (fun r => r.year == 2020)).map
            (fun r => r.diff_dev)).sum := by
  refine ⟨_, List.mem_map.2 ⟨2020, by decide, rfl⟩, ?_⟩
  rw [show pivotClassIndex (filterRegion dupRowFrame "King") = ["Forest"] from by decide]
  simp only [List.map_cons, List.map_nil, List.sum_cons, List.sum_nil]
  rw [show lccGroup (filterRegion dupRowFrame "King") 2020 "Forest" = dupRowFrame
        from by decide,
      show (filterRegion dupRowFrame "King").filter (fun r => r.year == 2020) = dupRowFrame
        from by decide,
      show dupRowFrame.map (fun r => r.diff_dev) = [1, 3] from by decide,
      show (dupRowFrame.isEmpty) = false from by decide]
  simp [ratMean]
  norm_num

/-- C10: the hydrologic variable choices are the sample (Pullayup) frame's
columns with Year, Day, Loop and Step removed, in column order; the choice
list does not depend on the selected river; and `hydro_summary` groups the
selected river's frame by Year, aggregating the chosen variable with min,
max and mean — attempted with no guard on the river's schema, so its
result is defined exactly when the column exists, with one summary row per
distinct year. -/
theorem hydro_options_and_summary (cols : List String) (f : HFrame)
    (v river river2 : String) :
    List.Sublist (hydro_variable_options cols) cols ∧
    (∀ c, c ∈ hydro_variable_options cols ↔
        c ∈ cols ∧ c ∉ (["Year", "Day", "Loop", "Step"] : List String)) ∧
    variable_choices cols river = variable_choices cols river2 ∧
    ((hydro_summary f v).isSome ↔ v ∈ f.cols) ∧
    (∀ l, hydro_summary f v = some l →
        (l.map (fun s => s.year)).Nodup ∧
        (∀ y, y ∈ l.map (fun s => s.year) ↔ ∃ r ∈ f.rows, r.year = y) ∧
        (∀ s ∈ l, s.minV = ratListMin (hydroGroupVals f v s.year) ∧
                  s.maxV = ratListMax (hydroGroupVals f v s.year) ∧
                  s.meanV = ratMean (hydroGroupVals f v s.year))) := by
  refine ⟨List.filter_sublist cols, ?_, rfl, ?_, ?_⟩
  · intro c
    simp [hydro_variable_options, List.mem_filter]
  · by_cases h : v ∈ f.cols <;> simp [hydro_summary, h]
  · intro l hl
    rw [hydro_summary] at hl
    by_cases h : v ∈ f.cols
    · rw [if_pos h] at hl
      cases hl
      refine ⟨?_, ?_, ?_⟩
      · rw [map_map_eq_self _ _ _ (fun a => rfl)]
        exact nodup_sortBy _ _ (nodup_uniqueList _)
      · intro y
        rw [map_map_eq_self _ _ _ (fun a => rfl), mem_sortBy, mem_uniqueList,
          List.mem_map]
      · intro s hs
        rcases List.mem_map.1 hs with ⟨y, _, rfl⟩
        exact ⟨rfl, rfl, rfl⟩
    · rw [if_neg h] at hl
      exact Option.noConfusion hl

/-- Witness for C10 at the concrete sample frame, the column "Flow_cms"
and two river selections. -/
theorem hydro_options_and_summary_witness :
    ("Flow_cms" ∈ hydro_variable_options sampleHFrame.cols ↔
      "Flow_cms" ∈ sampleHFrame.cols ∧
        "Flow_cms" ∉ (["Year", "Day", "Loop", "Step"] : List String)) ∧
    ((hydro_summary sampleHFrame "Flow_cms").isSome ↔ "Flow_cms" ∈ sampleHFrame.cols) ∧
    ∃ l, hydro_summary sampleHFrame "Flow_cms" = some l ∧
      (l.map (fun s => s.year)).Nodup := by
  refine ⟨(hydro_options_and_summary sampleHFrame.cols sampleHFrame "Flow_cms"
      "Green" "Hoko").2.1 "Flow_cms",
    (hydro_options_and_summary sampleHFrame.cols sampleHFrame "Flow_cms"
      "Green" "Hoko").2.2.2.1, ?_⟩
  cases hs : hydro_summary sampleHFrame "Flow_cms" with
  | none =>
    exfalso
    have h := (hydro_options_and_summary sampleHFrame.cols sampleHFrame "Flow_cms"
      "Green" "Hoko").2.2.2.1
    rw [hs] at h
    simp at h
    exact h (by decide)
  | some l =>
    exact ⟨l, rfl, ((hydro_options_and_summary sampleHFrame.cols sampleHFrame
      "Flow_cms" "Green" "Hoko").2.2.2.2 l hs).1⟩
